import Mathlib

/-!
Verification of the LargeKinfu submap-based volumetric fusion engine
(`include/opencv5/opencv2/rgbd/large_kinfu.hpp`).

The repository ships the interface header only: the concrete artifacts in
the source are the `VolumeParams` default field values, the `Params` field
list, and the `LargeKinfu` virtual interface (with its `const` qualifiers).
The behaviour of the engine (tracking, integration, raycasting, submap
management, pose-graph optimization) is modelled from the specification,
as marked on each definition.

Floating-point values appearing in the header defaults (3.f, 3.f/512.f,
7.f*voxelSize, 0.25f) are all exactly representable in binary floating
point, so modelling them as rationals is exact.
-/

/-- Kind of volume, from the header: values can be TSDF (single volume)
or HASHTSDF (hashtable of volume units). -/
inductive VolumeType where
  | TSDF
  | HASHTSDF
deriving DecidableEq

/-- Poses in the header are `Matx44f` homogeneous 4x4 matrices
(`VolumeParams::pose`, the `cameraPose` argument of `render`); we model
them as 4x4 rational matrices, composed by matrix multiplication. -/
abbrev Pose := Matrix (Fin 4) (Fin 4) ℚ

/-- `VolumeParams` of `large_kinfu.hpp` (lines 20-84), with C++ `float`
fields as ℚ and `int` fields as ℤ. -/
structure VolumeParams where
  kind : VolumeType
  resolutionX : ℤ
  resolutionY : ℤ
  resolutionZ : ℤ
  unitResolution : ℤ
  volumSize : ℚ
  pose : Pose
  voxelSize : ℚ
  tsdfTruncDist : ℚ
  maxWeight : ℤ
  depthTruncThreshold : ℚ
  raycastStepFactor : ℚ

/-- The in-class default member initializers of `VolumeParams`
(header lines 26-77): kind = TSDF, resolution 128 per axis,
unitResolution = 0, volumSize = 3, pose = translation by
(-volumSize/2, -volumSize/2, 0.5), voxelSize = volumSize/512,
tsdfTruncDist = 7*voxelSize, maxWeight = 64, depthTruncThreshold = 0,
raycastStepFactor = 0.25. -/
def defaultVolumeParams : VolumeParams where
  kind := VolumeType.TSDF
  resolutionX := 128
  resolutionY := 128
  resolutionZ := 128
  unitResolution := 0
  volumSize := 3
  pose := Matrix.of
    ![![1, 0, 0, -(3 : ℚ) / 2], ![0, 1, 0, -3 / 2], ![0, 0, 1, 1 / 2], ![0, 0, 0, 1]]
  voxelSize := 3 / 512
  tsdfTruncDist := 7 * (3 / 512)
  maxWeight := 64
  depthTruncThreshold := 0
  raycastStepFactor := 1 / 4

/-- `Params` of `large_kinfu.hpp` (lines 86-160); matrices and vectors
over ℚ, sizes as pairs. -/
structure Params where
  frameSize : ℤ × ℤ
  intr : Matrix (Fin 3) (Fin 3) ℚ
  rgb_intr : Matrix (Fin 3) (Fin 3) ℚ
  depthFactor : ℚ
  bilateral_sigma_depth : ℚ
  bilateral_sigma_spatial : ℚ
  bilateral_kernel_size : ℤ
  pyramidLevels : ℤ
  tsdf_min_camera_movement : ℚ
  lightPose : Fin 3 → ℚ
  icpDistThresh : ℚ
  icpAngleThresh : ℚ
  icpIterations : List ℤ
  truncateThreshold : ℚ
  volumeParams : VolumeParams

/-- A TSDF voxel. Modelled from the spec: a voxel is
{signedDistance : float, weight : integer ≤ maxWeight}. -/
structure Voxel where
  tsdf : ℚ
  weight : ℤ
deriving DecidableEq

/-- Modelled from the spec: the depth-truncation step of integration
(`VolumeParams::depthTruncThreshold`, `Params::truncateThreshold` are
declared in the header; the integration code is not in the repository).
"Depth values beyond depthTruncThreshold (if >0) are ignored"; the header
doc says such depths are truncated to 0, and a zero depth is an invalid
measurement that contributes no voxel update. -/
def truncateDepth (thresh d : ℚ) : ℚ :=
  if 0 < thresh ∧ thresh < d then 0 else d

/-- Clamp a signed distance to the truncation band [-trunc, trunc]. -/
def clampTrunc (trunc x : ℚ) : ℚ :=
  max (-trunc) (min trunc x)

/-- Modelled from the spec: the voxel running-average update of
`integrate` (not in the repository):
newDist = (oldDist*oldWeight + clampedDist*1) / (oldWeight+1),
newWeight = min(oldWeight+1, maxWeight). -/
def integrateVoxel (mw : ℤ) (v : Voxel) (clampedDist : ℚ) : Voxel where
  tsdf := (v.tsdf * (v.weight : ℚ) + clampedDist) / ((v.weight : ℚ) + 1)
  weight := min (v.weight + 1) mw

/-- Modelled from the spec: per-pixel integration step. The projection
geometry is abstracted to an index correspondence (pixel k observes
voxel k); the depth filter and the running-average update follow the
spec. A depth truncated (or measured) as 0 is invalid and contributes
no update. -/
def integratePixel (mw : ℤ) (trunc thresh : ℚ) (v : Voxel) (d : ℚ) : Voxel :=
  let dt := truncateDepth thresh d
  if dt = 0 then v else integrateVoxel mw v (clampTrunc trunc dt)

/-- Modelled from the spec: integrating one depth frame into a volume,
voxel by voxel. -/
def integrateVolume (mw : ℤ) (trunc thresh : ℚ) (vol : List Voxel) (depth : List ℚ) :
    List Voxel :=
  List.zipWith (integratePixel mw trunc thresh) vol depth

/-- Iterated integration of a sequence of observed distances into one
voxel. -/
def integrateSeq (mw : ℤ) (v : Voxel) (ds : List ℚ) : Voxel :=
  ds.foldl (integrateVoxel mw) v

/-- Claim C2: after each integration a voxel's weight equals
min(oldWeight+1, maxWeight); it never decreases below its previous value
and never exceeds maxWeight, whose default is 64. -/
theorem integrate_weight_min_cap (mw : ℤ) (v : Voxel) (d : ℚ)
    (h : v.weight ≤ mw) :
    (integrateVoxel mw v d).weight = min (v.weight + 1) mw ∧
    v.weight ≤ (integrateVoxel mw v d).weight ∧
    (integrateVoxel mw v d).weight ≤ mw ∧
    defaultVolumeParams.maxWeight = 64 := by
  refine ⟨rfl, ?_, min_le_right _ _, rfl⟩
  exact le_min (by omega) h

theorem integrate_weight_min_cap_witness :
    (integrateVoxel 64 ⟨0, 0⟩ 1).weight = min ((0 : ℤ) + 1) 64 ∧
    (0 : ℤ) ≤ (integrateVoxel 64 ⟨0, 0⟩ 1).weight ∧
    (integrateVoxel 64 ⟨0, 0⟩ 1).weight ≤ 64 ∧
    defaultVolumeParams.maxWeight = 64 :=
  integrate_weight_min_cap 64 ⟨0, 0⟩ 1 (by decide)

/-- Claim C3 counterexample: the default VolumeParams (resolution 128 per
axis, volumSize = 3, voxelSize = volumSize/512) does NOT satisfy
voxelSize · resolution == volumeSize: (3/512)·128 = 3/4 ≠ 3. -/
theorem default_volume_relation_fails :
    ¬ (defaultVolumeParams.voxelSize * (defaultVolumeParams.resolutionX : ℚ)
        = defaultVolumeParams.volumSize) := by
  norm_num [defaultVolumeParams]

/-- Claim C3 (amended): the default VolumeParams has voxelSize·resolution
= volumeSize/4, not volumeSize; the relation the defaults satisfy is
voxelSize · 512 = volumeSize (the resolution default is 128, not the 512
the voxelSize default is derived from). -/
theorem default_volume_relation :
    defaultVolumeParams.voxelSize * (defaultVolumeParams.resolutionX : ℚ)
        = defaultVolumeParams.volumSize / 4 ∧
    defaultVolumeParams.voxelSize * 512 = defaultVolumeParams.volumSize ∧
    defaultVolumeParams.resolutionX = 128 ∧
    defaultVolumeParams.resolutionY = 128 ∧
    defaultVolumeParams.resolutionZ = 128 := by
  refine ⟨by norm_num [defaultVolumeParams], by norm_num [defaultVolumeParams], rfl, rfl, rfl⟩

/-- Claim C7: whenever a configuration sets tsdfTruncDist = 7·voxelSize
with a positive voxel size, the truncation distance is strictly greater
than the voxel edge length; the default configuration does set
tsdfTruncDist = 7·voxelSize and satisfies the strict inequality. -/
theorem trunc_dist_exceeds_voxel (p : VolumeParams)
    (he : p.tsdfTruncDist = 7 * p.voxelSize) (hv : 0 < p.voxelSize) :
    p.voxelSize < p.tsdfTruncDist ∧
    defaultVolumeParams.tsdfTruncDist = 7 * defaultVolumeParams.voxelSize ∧
    defaultVolumeParams.voxelSize < defaultVolumeParams.tsdfTruncDist := by
  refine ⟨?_, rfl, by norm_num [defaultVolumeParams]⟩
  rw [he]; linarith

theorem trunc_dist_exceeds_voxel_witness :
    defaultVolumeParams.voxelSize < defaultVolumeParams.tsdfTruncDist ∧
    defaultVolumeParams.tsdfTruncDist = 7 * defaultVolumeParams.voxelSize ∧
    defaultVolumeParams.voxelSize < defaultVolumeParams.tsdfTruncDist :=
  trunc_dist_exceeds_voxel defaultVolumeParams rfl (by norm_num [defaultVolumeParams])

/-- Claim C8: with a positive depthTruncThreshold, a depth beyond the
threshold is truncated to 0 and contributes no voxel update; with the
threshold at 0 (the default), no depth is altered by this filter. -/
theorem depth_truncation (thresh d : ℚ) (h0 : 0 < thresh) (hd : thresh < d) :
    truncateDepth thresh d = 0 ∧
    (∀ (mw : ℤ) (trunc : ℚ) (v : Voxel), integratePixel mw trunc thresh v d = v) ∧
    (∀ x : ℚ, truncateDepth 0 x = x) ∧
    defaultVolumeParams.depthTruncThreshold = 0 := by
  refine ⟨by simp [truncateDepth, h0, hd], ?_, ?_, rfl⟩
  · intro mw trunc v
    simp [integratePixel, truncateDepth, h0, hd]
  · intro x
    simp [truncateDepth]

theorem depth_truncation_witness :
    truncateDepth 1 2 = 0 ∧
    (∀ (mw : ℤ) (trunc : ℚ) (v : Voxel), integratePixel mw trunc 1 v 2 = v) ∧
    (∀ x : ℚ, truncateDepth 0 x = x) ∧
    defaultVolumeParams.depthTruncThreshold = 0 :=
  depth_truncation 1 2 (by norm_num) (by norm_num)

/-- Claim C9: a default-constructed VolumeParams has kind TSDF (dense
single volume), not HASHTSDF, despite the class documentation describing
a spatially hashed representation. -/
theorem default_kind_is_tsdf :
    defaultVolumeParams.kind = VolumeType.TSDF ∧
    defaultVolumeParams.kind ≠ VolumeType.HASHTSDF :=
  ⟨rfl, by decide⟩

/-- A pose-graph node. Modelled from the spec: nodes are submap ids with
a current pose estimate. -/
structure PoseNode where
  id : ℕ
  pose : Pose

/-- A pose-graph edge. Modelled from the spec: edges are
{fromId, toId, relativePose, informationWeight}. -/
structure PoseEdge where
  fromId : ℕ
  toId : ℕ
  relativePose : Pose
  informationWeight : ℚ

/-- Modelled from the spec: the pose graph maintained by the optimizer;
one node (typically the first submap) is the fixed global anchor. -/
structure PoseGraph where
  nodes : List PoseNode
  edges : List PoseEdge
  anchorId : ℕ

/-- Current pose estimate of a node, by id. -/
def lookupPose (nodes : List PoseNode) (i : ℕ) : Option Pose :=
  (nodes.find? (fun n => n.id == i)).map (fun n => n.pose)

/-- One edge-propagation step of the solver: when the source of an edge
is solved and its target is not, the target is assigned the source pose
composed with the edge's relative pose (the pose with zero residual on
that edge). Already-solved nodes are never reassigned. -/
def edgeStep (acc : List (ℕ × Pose)) (e : PoseEdge) : List (ℕ × Pose) :=
  match acc.lookup e.fromId, acc.lookup e.toId with
  | some pf, none => (e.toId, pf * e.relativePose) :: acc
  | _, _ => acc

/-- Propagate solved poses across every edge once. -/
def stepEdges (acc : List (ℕ × Pose)) (edges : List PoseEdge) : List (ℕ × Pose) :=
  edges.foldl edgeStep acc

/-- Iterate edge propagation with explicit fuel (the iteration cap of the
solver; graph diameter is below the node count). -/
def propagatePoses : ℕ → List (ℕ × Pose) → List PoseEdge → List (ℕ × Pose)
  | 0, acc, _ => acc
  | fuel + 1, acc, edges => propagatePoses fuel (stepEdges acc edges) edges

/-- Rewrite one node's pose from the solved assignment, if present. -/
def applySolved (solved : List (ℕ × Pose)) (n : PoseNode) : PoseNode :=
  match solved.lookup n.id with
  | some p => { n with pose := p }
  | none => n

/-- Modelled from the spec: `PoseGraphOptimizer::optimize` (not in the
repository). The anchored node is held fixed; every node reachable from
the anchor along edge directions receives the pose propagated from the
anchor (for a tree this is the exact least-squares minimizer, with all
residuals zero); nodes the propagation does not reach keep their
pre-optimization poses, as a failed pass must. -/
def optimize (g : PoseGraph) : PoseGraph :=
  match lookupPose g.nodes g.anchorId with
  | none => g
  | some ap =>
    let solved := propagatePoses g.nodes.length [(g.anchorId, ap)] g.edges
    { g with nodes := g.nodes.map (applySolved solved) }

theorem edgeStep_lookup (acc : List (ℕ × Pose)) (e : PoseEdge) (a : ℕ) (p : Pose)
    (h : acc.lookup a = some p) : (edgeStep acc e).lookup a = some p := by
  unfold edgeStep
  split
  case _ pf h1 h2 =>
    have hne : a ≠ e.toId := by
      intro he
      rw [he, h2] at h
      exact Option.noConfusion h
    have hb : (a == e.toId) = false := beq_eq_false_iff_ne.mpr hne
    simpa [List.lookup, hb] using h
  case _ => exact h

theorem stepEdges_lookup (edges : List PoseEdge) :
    ∀ (acc : List (ℕ × Pose)) (a : ℕ) (p : Pose),
      acc.lookup a = some p → (stepEdges acc edges).lookup a = some p := by
  induction edges with
  | nil => intro acc a p h; exact h
  | cons e es ih =>
    intro acc a p h
    exact ih (edgeStep acc e) a p (edgeStep_lookup acc e a p h)

theorem propagatePoses_lookup (fuel : ℕ) :
    ∀ (acc : List (ℕ × Pose)) (edges : List PoseEdge) (a : ℕ) (p : Pose),
      acc.lookup a = some p → (propagatePoses fuel acc edges).lookup a = some p := by
  induction fuel with
  | zero => intro acc edges a p h; exact h
  | succ n ih =>
    intro acc edges a p h
    exact ih (stepEdges acc edges) edges a p (stepEdges_lookup edges acc a p h)

theorem applySolved_id (solved : List (ℕ × Pose)) (n : PoseNode) :
    (applySolved solved n).id = n.id := by
  unfold applySolved
  split <;> rfl

theorem find_map_applySolved (solved : List (ℕ × Pose)) (i : ℕ) :
    ∀ nodes : List PoseNode,
      (nodes.map (applySolved solved)).find? (fun n => n.id == i)
        = (nodes.find? (fun n => n.id == i)).map (applySolved solved) := by
  intro nodes
  induction nodes with
  | nil => rfl
  | cons n ns ih =>
    by_cases hb : (n.id == i) = true
    · simp [List.find?, applySolved_id, hb]
    · simp only [Bool.not_eq_true] at hb
      simp [List.find?, applySolved_id, hb, ih]

/-- Claim C4: after optimize the anchored node's pose is unchanged, and
for a two-node graph with a single edge of relative pose P, the
non-anchored node's optimized pose is the anchor pose composed with P. -/
theorem optimize_anchor_fixed (g : PoseGraph) (ap : Pose)
    (h : lookupPose g.nodes g.anchorId = some ap) :
    lookupPose (optimize g).nodes g.anchorId = some ap ∧
    (∀ (A B P : Pose) (w : ℚ),
      optimize ⟨[⟨0, A⟩, ⟨1, B⟩], [⟨0, 1, P, w⟩], 0⟩
        = ⟨[⟨0, A⟩, ⟨1, A * P⟩], [⟨0, 1, P, w⟩], 0⟩) := by
  constructor
  · have hex : ∃ n0, g.nodes.find? (fun n => n.id == g.anchorId) = some n0 ∧ n0.pose = ap := by
      unfold lookupPose at h
      cases hf : g.nodes.find? (fun n => n.id == g.anchorId) with
      | none => rw [hf] at h; exact Option.noConfusion h
      | some n0 =>
        rw [hf] at h
        exact ⟨n0, rfl, by simpa using h⟩
    obtain ⟨n0, hf, hp⟩ := hex
    have hid : n0.id = g.anchorId := by
      have hb := List.find?_some hf
      simpa using hb
    have hsolved :
        (propagatePoses g.nodes.length [(g.anchorId, ap)] g.edges).lookup g.anchorId
          = some ap :=
      propagatePoses_lookup g.nodes.length [(g.anchorId, ap)] g.edges g.anchorId ap
        (by simp [List.lookup])
    show lookupPose (optimize g).nodes g.anchorId = some ap
    unfold optimize
    simp only [h]
    unfold lookupPose
    rw [find_map_applySolved, hf]
    unfold applySolved
    simp only [Option.map_some']
    rw [hid, hsolved]
  · intro A B P w
    rfl

theorem optimize_anchor_fixed_witness :
    lookupPose (optimize ⟨[⟨0, 1⟩], [], 0⟩).nodes (PoseGraph.mk [⟨0, 1⟩] [] 0).anchorId
      = some 1 ∧
    (∀ (A B P : Pose) (w : ℚ),
      optimize ⟨[⟨0, A⟩, ⟨1, B⟩], [⟨0, 1, P, w⟩], 0⟩
        = ⟨[⟨0, A⟩, ⟨1, A * P⟩], [⟨0, 1, P, w⟩], 0⟩) :=
  optimize_anchor_fixed ⟨[⟨0, 1⟩], [], 0⟩ 1 rfl

/-- A depth frame: the pre-scaled depth values of one image, row-major.
Modelled from the spec; the header passes depth as an InputArray. -/
abbrev DepthFrame := List ℚ

/-- A submap. Modelled from the spec:
{id, pose, volume (exclusively owned), createdAtFrame, isActive}. -/
structure Submap where
  id : ℕ
  pose : Pose
  voxels : List Voxel
  createdAtFrame : ℕ
  isActive : Bool

/-- Modelled from the spec: the state of the LargeKinfu engine —
configuration, the submaps owned by the submap manager, the pose graph,
the current camera pose, and the frame counter. -/
structure EngineState where
  params : Params
  submaps : List Submap
  graph : PoseGraph
  currentPose : Pose
  frameIndex : ℕ

/-- Modelled from the spec: the unobserved voxel default — distance at
the truncation value, weight 0. -/
def initVoxel (vp : VolumeParams) : Voxel :=
  ⟨vp.tsdfTruncDist, 0⟩

/-- A freshly constructed dense volume: every voxel unobserved. -/
def freshVolume (vp : VolumeParams) : List Voxel :=
  List.replicate (vp.resolutionX.toNat * vp.resolutionY.toNat * vp.resolutionZ.toNat)
    (initVoxel vp)

/-- Modelled from the spec: the empty initial engine state — no submaps,
empty pose graph, identity camera pose, frame counter 0. -/
def initState (p : Params) : EngineState where
  params := p
  submaps := []
  graph := ⟨[], [], 0⟩
  currentPose := 1
  frameIndex := 0

/-- Modelled from the spec: the tracker interface.
`track(frame, referenceSubmap) -> pose, converged`; a TrackingLost
condition is `none`. The ICP solve itself is outside the repository, so
the engine theorems quantify over the tracker. -/
abbrev Tracker := EngineState → DepthFrame → Option Pose

/-- TSDF sample along the marching ray; indices beyond the volume read
as unobserved (distance 1, i.e. fully truncated). -/
def sampleTsdf (vol : List Voxel) (k : ℕ) : ℚ :=
  (vol.getD k ⟨1, 0⟩).tsdf

/-- Modelled from the spec: march along the ray looking for a
zero-crossing of the signed distance (sign change from positive to
non-positive between consecutive samples), with explicit fuel. -/
def findCrossing (vol : List Voxel) : ℕ → ℕ → Option ℕ
  | 0, _ => none
  | fuel + 1, k =>
    if 0 < sampleTsdf vol k ∧ sampleTsdf vol (k + 1) ≤ 0 then some k
    else findCrossing vol fuel (k + 1)

/-- Modelled from the spec: `raycast` (not in the repository), restricted
to a single ray (one pixel): march in steps of
raycastStepFactor·voxelSize, refine the crossing by linear interpolation
between the two straddling samples, and return the surface point (depth
along the ray, offset by the camera translation) and the normal (the
difference gradient of the distance field); no crossing yields `none`
("no surface"), not an error. -/
def raycastVolume (vp : VolumeParams) (vol : List Voxel) (pose : Pose) :
    Option (ℚ × ℚ) :=
  match findCrossing vol vol.length 0 with
  | none => none
  | some k =>
    let s0 := sampleTsdf vol k
    let s1 := sampleTsdf vol (k + 1)
    let step := vp.raycastStepFactor * vp.voxelSize
    some (pose 2 3 + ((k : ℚ) + s0 / (s0 - s1)) * step, (s1 - s0) / step)

/-- Modelled from the spec: a voxel is near-surface when its weight is
positive and its distance is within one voxel of zero. -/
def nearSurface (vp : VolumeParams) (v : Voxel) : Bool :=
  decide (0 < v.weight) && decide (|v.tsdf| ≤ vp.voxelSize)

/-- Modelled from the spec: near-surface point extraction from one
submap, each point transformed into the global frame using the submap
pose (index geometry: voxel k sits at depth k·voxelSize). -/
def fetchPoints (vp : VolumeParams) (sm : Submap) : List ℚ :=
  sm.voxels.enum.filterMap (fun kv =>
    if nearSurface vp kv.2 then some (sm.pose 2 3 + (kv.1 : ℚ) * vp.voxelSize)
    else none)

/-- Near-surface normal extraction from one submap (difference gradient
of the distance field at each exported voxel). -/
def fetchNormals (vp : VolumeParams) (sm : Submap) : List ℚ :=
  sm.voxels.enum.filterMap (fun kv =>
    if nearSurface vp kv.2 then
      some ((sampleTsdf sm.voxels (kv.1 + 1) - sampleTsdf sm.voxels kv.1) / vp.voxelSize)
    else none)

/-- `getPoints`: aggregate near-surface points across all submaps. -/
def getPointsE (s : EngineState) : List ℚ :=
  s.submaps.flatMap (fetchPoints s.params.volumeParams)

/-- `getNormals` / the normals half of `getCloud`. -/
def getNormalsE (s : EngineState) : List ℚ :=
  s.submaps.flatMap (fetchNormals s.params.volumeParams)

/-- `getCloud`: points and normals together. -/
def getCloudE (s : EngineState) : List ℚ × List ℚ :=
  (getPointsE s, getNormalsE s)

/-- The volume of the currently active submap (empty if none). -/
def activeVolume (s : EngineState) : List Voxel :=
  match s.submaps.find? (fun sm => sm.isActive) with
  | some sm => sm.voxels
  | none => []

/-- `render(image, cameraPose)`: raycast the active submap from a given
pose. -/
def renderE (s : EngineState) (pose : Pose) : Option (ℚ × ℚ) :=
  raycastVolume s.params.volumeParams (activeVolume s) pose

/-- `render(image)`: raycast from the current camera pose. -/
def renderDefaultE (s : EngineState) : Option (ℚ × ℚ) :=
  renderE s s.currentPose

/-- Modelled from the spec: the rigid inverse of a homogeneous pose
(transposed rotation block, negated back-rotated translation). -/
def rigidInv (p : Pose) : Pose :=
  Matrix.of (fun i j =>
    if (i : ℕ) ≤ 2 ∧ (j : ℕ) ≤ 2 then p j i
    else if (i : ℕ) ≤ 2 ∧ (j : ℕ) = 3 then
      -(p 0 i * p 0 3 + p 1 i * p 1 3 + p 2 i * p 2 3)
    else if (i : ℕ) = 3 ∧ (j : ℕ) = 3 then 1
    else 0)

/-- The pose of `b` expressed relative to `a`. -/
def relativePoseBetween (a b : Pose) : Pose :=
  rigidInv a * b

/-- A newly spawned submap, seeded at the tracked camera pose, active. -/
def spawnSubmap (vp : VolumeParams) (id : ℕ) (pose : Pose) (frameIdx : ℕ) : Submap :=
  ⟨id, pose, freshVolume vp, frameIdx, true⟩

/-- Modelled from the spec: one raycast pixel stands for the frustum, so
visibility is low exactly when the raycast finds no valid surface. -/
def lowVisibility (vp : VolumeParams) (vol : List Voxel) (pose : Pose) : Bool :=
  (raycastVolume vp vol pose).isNone

/-- Modelled from the spec: the fixed frame interval of the periodic
pose-graph optimization pass. -/
def optimizeInterval : ℕ := 10

/-- Modelled from the spec: the successful-track branch of
`LargeKinfu::update` — bootstrap the first submap on the first frame,
integrate the frame into every active submap, spawn a new submap (with a
pose-graph edge seeded with the tracked relative pose) when visibility
drops, optimize the pose graph on its periodic cadence, then commit the
tracked pose and advance the frame counter. -/
def updateSuccess (s : EngineState) (pose : Pose) (f : DepthFrame) : EngineState :=
  let vp := s.params.volumeParams
  let s1 : EngineState :=
    if s.submaps.isEmpty then
      { s with submaps := [spawnSubmap vp 0 pose s.frameIndex],
               graph := ⟨[⟨0, pose⟩], [], 0⟩ }
    else s
  let s2 : EngineState := { s1 with
    submaps := s1.submaps.map (fun sm =>
      if sm.isActive then
        { sm with voxels := integrateVolume vp.maxWeight vp.tsdfTruncDist
                              s.params.truncateThreshold sm.voxels f }
      else sm) }
  let s3 : EngineState :=
    match s2.submaps.find? (fun sm => sm.isActive) with
    | some prev =>
      if lowVisibility vp prev.voxels pose then
        let newId := s2.submaps.length
        { s2 with
          submaps := s2.submaps.map (fun sm => { sm with isActive := false })
                       ++ [spawnSubmap vp newId pose s.frameIndex],
          graph := ⟨s2.graph.nodes ++ [⟨newId, pose⟩],
                    s2.graph.edges
                      ++ [⟨prev.id, newId, relativePoseBetween prev.pose pose, 1⟩],
                    s2.graph.anchorId⟩ }
      else s2
    | none => s2
  let s4 : EngineState :=
    if (s3.frameIndex + 1) % optimizeInterval = 0 then
      { s3 with graph := optimize s3.graph }
    else s3
  { s4 with currentPose := pose, frameIndex := s4.frameIndex + 1 }

/-- Modelled from the spec: `LargeKinfu::update` — track, then on
success integrate / manage submaps / optimize; on TrackingLost return
false and leave the state untouched. -/
def updateE (trk : Tracker) (s : EngineState) (f : DepthFrame) : Bool × EngineState :=
  match trk s f with
  | none => (false, s)
  | some pose => (true, updateSuccess s pose f)

/-- Modelled from the spec: `LargeKinfu::reset` — clear all submaps and
the pose graph, returning to the empty initial state (the configuration
is construction-time immutable and survives). -/
def resetE (s : EngineState) : EngineState :=
  initState s.params

/-- The engine's public operations, as observable events of a trace. -/
inductive EngineOp where
  | updateOp (f : DepthFrame)
  | resetOp
  | getParamsOp
  | renderDefaultOp
  | renderPoseOp (p : Pose)
  | getCloudOp
  | getPointsOp
  | getNormalsOp
  | getPoseOp

/-- State effect of each operation: the two mutators act, every query
(declared `const` in the header) leaves the state as it is. -/
def opState (trk : Tracker) (s : EngineState) : EngineOp → EngineState
  | EngineOp.updateOp f => (updateE trk s f).2
  | EngineOp.resetOp => resetE s
  | EngineOp.getParamsOp => s
  | EngineOp.renderDefaultOp => s
  | EngineOp.renderPoseOp _ => s
  | EngineOp.getCloudOp => s
  | EngineOp.getPointsOp => s
  | EngineOp.getNormalsOp => s
  | EngineOp.getPoseOp => s

/-- The operations the header declares `const`. -/
def isQueryOp : EngineOp → Bool
  | EngineOp.updateOp _ => false
  | EngineOp.resetOp => false
  | EngineOp.getParamsOp => true
  | EngineOp.renderDefaultOp => true
  | EngineOp.renderPoseOp _ => true
  | EngineOp.getCloudOp => true
  | EngineOp.getPointsOp => true
  | EngineOp.getNormalsOp => true
  | EngineOp.getPoseOp => true

/-- Run a sequence of operations from a state. -/
def runTrace (trk : Tracker) (s : EngineState) (ops : List EngineOp) : EngineState :=
  ops.foldl (opState trk) s

theorem opState_query_eq (trk : Tracker) (s : EngineState) (o : EngineOp)
    (h : isQueryOp o = true) : opState trk s o = s := by
  cases o <;> first
    | rfl
    | simp [isQueryOp] at h

theorem runTrace_queries (trk : Tracker) (ops : List EngineOp)
    (h : ∀ o ∈ ops, isQueryOp o = true) : ∀ s, runTrace trk s ops = s := by
  induction ops with
  | nil => intro s; rfl
  | cons o os ih =>
    intro s
    have ho : opState trk s o = s := opState_query_eq trk s o (h o (by simp))
    have hos : ∀ x ∈ os, isQueryOp x = true := fun x hx => h x (by simp [hx])
    show runTrace trk (opState trk s o) os = s
    rw [ho]
    exact ih hos s

/-- A concrete configuration (typical kinfu-style values) used to
instantiate the engine theorems on closed inputs. -/
def sampleParams : Params where
  frameSize := (640, 480)
  intr := 1
  rgb_intr := 1
  depthFactor := 5000
  bilateral_sigma_depth := 1 / 25
  bilateral_sigma_spatial := 9 / 2
  bilateral_kernel_size := 7
  pyramidLevels := 3
  tsdf_min_camera_movement := 0
  lightPose := fun _ => 0
  icpDistThresh := 1 / 10
  icpAngleThresh := 3 / 4
  icpIterations := [10, 5, 4]
  truncateThreshold := 0
  volumeParams := defaultVolumeParams

/-- Claim C1: on a frame whose tracking fails (TrackingLost, the tracker
returns none), update returns false and leaves the whole engine state
unchanged; being a total function it cannot throw, and the unchanged
state stays valid for the next call. -/
theorem update_tracking_lost (trk : Tracker) (s : EngineState) (f : DepthFrame)
    (h : trk s f = none) :
    updateE trk s f = (false, s) := by
  unfold updateE
  rw [h]

theorem update_tracking_lost_witness :
    updateE (fun _ _ => none) (initState sampleParams) [1]
      = (false, initState sampleParams) :=
  update_tracking_lost (fun _ _ => none) (initState sampleParams) [1] rfl

/-- Claim C5: reset puts the engine in the empty initial state — all
submaps and the pose graph cleared, getPoints empty — and a subsequent
update behaves identically to the first-ever update of a freshly
constructed engine. -/
theorem reset_returns_initial (s : EngineState) :
    resetE s = initState s.params ∧
    (resetE s).submaps = [] ∧
    (resetE s).graph = ⟨[], [], 0⟩ ∧
    getPointsE (resetE s) = [] ∧
    (∀ (trk : Tracker) (f : DepthFrame),
      updateE trk (resetE s) f = updateE trk (initState s.params) f) :=
  ⟨rfl, rfl, rfl, rfl, fun _ _ => rfl⟩

/-- Claim C6: across any run of operations containing no integration (all
operations are queries), raycasting yields identical surface points and
normals before and after — the raycast is a function of the volume state
and the query pose alone. -/
theorem raycast_idempotent_between (trk : Tracker) (s : EngineState) (p : Pose)
    (ops : List EngineOp) (h : ∀ o ∈ ops, isQueryOp o = true) :
    renderE (runTrace trk s ops) p = renderE s p ∧
    renderDefaultE (runTrace trk s ops) = renderDefaultE s ∧
    getPointsE (runTrace trk s ops) = getPointsE s ∧
    getNormalsE (runTrace trk s ops) = getNormalsE s := by
  have hr := runTrace_queries trk ops h s
  rw [hr]
  exact ⟨rfl, rfl, rfl, rfl⟩

theorem raycast_idempotent_between_witness :
    renderE (runTrace (fun _ _ => none) (initState sampleParams)
        [EngineOp.renderPoseOp 1, EngineOp.getPoseOp]) 1
      = renderE (initState sampleParams) 1 ∧
    renderDefaultE (runTrace (fun _ _ => none) (initState sampleParams)
        [EngineOp.renderPoseOp 1, EngineOp.getPoseOp])
      = renderDefaultE (initState sampleParams) ∧
    getPointsE (runTrace (fun _ _ => none) (initState sampleParams)
        [EngineOp.renderPoseOp 1, EngineOp.getPoseOp])
      = getPointsE (initState sampleParams) ∧
    getNormalsE (runTrace (fun _ _ => none) (initState sampleParams)
        [EngineOp.renderPoseOp 1, EngineOp.getPoseOp])
      = getNormalsE (initState sampleParams) :=
  raycast_idempotent_between (fun _ _ => none) (initState sampleParams) 1
    [EngineOp.renderPoseOp 1, EngineOp.getPoseOp]
    (by intro o ho; fin_cases ho <;> rfl)

/-- Claim C10: every query operation the header declares const
(getParams, both render overloads, getCloud, getPoints, getNormals,
getPose) leaves the engine state unchanged, so any later operation
produces the same result as if the query had not been made. -/
theorem query_ops_pure (trk : Tracker) (s : EngineState) (o : EngineOp)
    (h : isQueryOp o = true) :
    opState trk s o = s ∧
    (∀ ops : List EngineOp, runTrace trk (opState trk s o) ops = runTrace trk s ops) := by
  have he := opState_query_eq trk s o h
  exact ⟨he, fun ops => by rw [he]⟩

theorem query_ops_pure_witness :
    opState (fun _ _ => none) (initState sampleParams) EngineOp.getPointsOp
      = initState sampleParams ∧
    (∀ ops : List EngineOp,
      runTrace (fun _ _ => none)
          (opState (fun _ _ => none) (initState sampleParams) EngineOp.getPointsOp) ops
        = runTrace (fun _ _ => none) (initState sampleParams) ops) :=
  query_ops_pure (fun _ _ => none) (initState sampleParams) EngineOp.getPointsOp rfl
